import Mathlib

/-!
Verification of the ByteGo upload gateway.

This file is a shallow embedding of the upload admission and
key-resolution pipeline of the ByteGo repository:

* the Cloudflare Worker upload handler in src/index.ts;
* the template utilities generateRandomHex and parsePath (utils.ts,
  reproduced in the repository README);
* the admission guard (IP ban logic) and the deterministic rename of the
  Flask backend, whose main.py is not part of the snapshot and which are
  therefore modelled from the specification and the in-repo pseudocode.

JS strings are modelled as `List Char`.  Randomness (crypto.getRandomValues,
crypto.randomUUID) is modelled by explicit oracles: a byte oracle
`Nat → Nat` for generateRandomHex and per-placeholder draw oracles
`Nat → List Char` threaded through parsePath, one fresh index per
occurrence, exactly as the per-match callbacks in the source.
-/

namespace ByteGo

/-- Convert a Lean string literal to the `List Char` model of JS strings. -/
def chars (s : String) : List Char := s.toList

/-! ## generateRandomHex (utils.ts)

JS source:
  const array = new Uint8Array(Math.ceil(length / 2));
  crypto.getRandomValues(array);
  return Array.from(array).map(b => b.toString(16).padStart(2, "0")).join("").slice(0, length);
-/

/-- One lowercase hexadecimal digit: `n.toString(16)` for `n < 16`. -/
def hexDigit (n : Nat) : Char :=
  if n < 10 then Char.ofNat (48 + n) else Char.ofNat (87 + n)

/-- `b.toString(16).padStart(2, "0")` for a byte `b < 256`: exactly two
lowercase hex digits. -/
def byteToHex (b : Nat) : List Char :=
  [hexDigit (b / 16), hexDigit (b % 16)]

/-- generateRandomHex from utils.ts.  `bytes` is the oracle standing for
crypto.getRandomValues: byte `i` of the freshly filled Uint8Array (reduced
mod 256, as Uint8Array entries are bytes). -/
def generateRandomHex (len : Nat) (bytes : Nat → Nat) : List Char :=
  (((List.range ((len + 1) / 2)).map fun i => byteToHex (bytes i % 256)).flatten).take len

/-- A lowercase hexadecimal character `[0-9a-f]`. -/
def HexLowerChar (c : Char) : Prop :=
  (48 ≤ c.toNat ∧ c.toNat ≤ 57) ∨ (97 ≤ c.toNat ∧ c.toNat ≤ 102)

instance : DecidablePred HexLowerChar := fun c => by
  unfold HexLowerChar; infer_instance

/-! ## Filename sanitization (parsePath, utils.ts)

JS source:
  const extIndex = filename.lastIndexOf(".");
  const ext = extIndex !== -1 ? filename.substring(extIndex) : "";
  let safeFilename = filename.split("/").pop()?.split("\\").pop() || filename;
  safeFilename = safeFilename.replace(/[^a-zA-Z0-9._-]/g, "_");
-/

/-- The character class `[A-Za-z0-9._-]` kept by the sanitizer. -/
def SafeChar (c : Char) : Prop :=
  (97 ≤ c.toNat ∧ c.toNat ≤ 122) ∨ (65 ≤ c.toNat ∧ c.toNat ≤ 90) ∨
    (48 ≤ c.toNat ∧ c.toNat ≤ 57) ∨ c.toNat = 46 ∨ c.toNat = 95 ∨ c.toNat = 45

instance : DecidablePred SafeChar := fun c => by
  unfold SafeChar; infer_instance

/-- `replace(/[^a-zA-Z0-9._-]/g, "_")`, one character. -/
def sanitizeChar (c : Char) : Char :=
  if SafeChar c then c else '_'

/-- `s.split(sep)` for a one-character separator; never returns `[]`,
like the JS split of a string. -/
def splitOnChar (sep : Char) : List Char → List (List Char)
  | [] => [[]]
  | c :: rest =>
    match splitOnChar sep rest with
    | [] => [[]]
    | seg :: segs => if c = sep then [] :: seg :: segs else (c :: seg) :: segs

/-- `s.split(sep).pop()`: the final segment. -/
def jsLastSeg (sep : Char) (l : List Char) : List Char :=
  (splitOnChar sep l).getLastD []

/-- `filename.split("/").pop()?.split("\\").pop() || filename`:
the final path segment, with the whole filename as the JS falsy
fallback when that segment is empty. -/
def baseNameOf (filename : List Char) : List Char :=
  let s := jsLastSeg '\\' (jsLastSeg '/' filename)
  if s = [] then filename else s

/-- The sanitized filename substituted for {originname}. -/
def sanitizeFilename (filename : List Char) : List Char :=
  (baseNameOf filename).map sanitizeChar

/-- `filename.substring(filename.lastIndexOf("."))` when a dot exists,
`""` otherwise: the suffix of the (unsanitized!) filename starting at its
last dot. -/
def extOf : List Char → List Char
  | [] => []
  | c :: rest => if c = '.' ∧ '.' ∉ rest then c :: rest else extOf rest

/-- `safeFilename.substring(0, safeFilename.lastIndexOf("."))` — the prefix
of the sanitized name before its last dot; JS substring(0, -1) collapses to
`""` when the sanitized name has no dot. -/
def prefixBeforeLastDot : List Char → List Char
  | [] => []
  | c :: rest => if '.' ∈ rest then c :: prefixBeforeLastDot rest else []

/-- The value substituted for {originname_without_ext}: guarded by the
last-dot index of the original filename, computed on the sanitized one. -/
def originNameWithoutExtOf (filename : List Char) : List Char :=
  if '.' ∈ filename then prefixBeforeLastDot (sanitizeFilename filename)
  else sanitizeFilename filename

/-! ## String.prototype.replace with a /g literal pattern

`path.replace(/{tok}/g, v)` and `path.replace(/{tok}/g, () => fresh())`
replace the leftmost non-overlapping occurrences of the literal pattern,
scanning left to right.  The callback form draws one fresh value per
occurrence; we model the draws by an oracle `f : Nat → List Char` and a
draw counter that advances by one at each occurrence.

The recursion consumes at least one character per step, so it is phrased
structurally over a fuel initialised to the string length, keeping every
definition kernel-computable. -/

/-- Fuel-indexed replace-all with a per-occurrence draw oracle. -/
def replF (pat : List Char) (f : Nat → List Char) : Nat → List Char → Nat → List Char
  | 0, s, _ => s
  | _ + 1, [], _ => []
  | fuel + 1, c :: rest, k =>
    if pat ≠ [] ∧ pat.isPrefixOf (c :: rest) then
      f k ++ replF pat f fuel ((c :: rest).drop pat.length) (k + 1)
    else
      c :: replF pat f fuel rest k

/-- Fuel-indexed count of the occurrences the replace acts on. -/
def countOccF (pat : List Char) : Nat → List Char → Nat
  | 0, _ => 0
  | _ + 1, [] => 0
  | fuel + 1, c :: rest =>
    if pat ≠ [] ∧ pat.isPrefixOf (c :: rest) then
      countOccF pat fuel ((c :: rest).drop pat.length) + 1
    else
      countOccF pat fuel rest

/-- Fuel-indexed list of the values substituted for the occurrences,
in order. -/
def occValsF (pat : List Char) (f : Nat → List Char) : Nat → List Char → Nat → List (List Char)
  | 0, _, _ => []
  | _ + 1, [], _ => []
  | fuel + 1, c :: rest, k =>
    if pat ≠ [] ∧ pat.isPrefixOf (c :: rest) then
      f k :: occValsF pat f fuel ((c :: rest).drop pat.length) (k + 1)
    else
      occValsF pat f fuel rest k

/-- Fuel-indexed segments of the string between the occurrences. -/
def segsF (pat : List Char) : Nat → List Char → List (List Char)
  | 0, s => [s]
  | _ + 1, [] => [[]]
  | fuel + 1, c :: rest =>
    if pat ≠ [] ∧ pat.isPrefixOf (c :: rest) then
      [] :: segsF pat fuel ((c :: rest).drop pat.length)
    else
      match segsF pat fuel rest with
      | [] => [[c]]
      | seg :: segs => (c :: seg) :: segs

/-- Interleave segments with substituted values. -/
def joinSegs : List (List Char) → List (List Char) → List Char
  | [], _ => []
  | a :: _, [] => a
  | a :: segs, v :: vals => a ++ v ++ joinSegs segs vals

/-- `s.replace(pat, cb)` with a global literal pattern, where the callback
returns `f k, f (k+1), …` on successive occurrences. -/
def replG (pat : List Char) (f : Nat → List Char) (s : List Char) (k : Nat) : List Char :=
  replF pat f s.length s k

/-- Number of occurrences of the literal pattern acted on by the replace. -/
def countOcc (pat s : List Char) : Nat :=
  countOccF pat s.length s

/-- The values substituted for the occurrences of the pattern, in order. -/
def occVals (pat : List Char) (f : Nat → List Char) (s : List Char) (k : Nat) : List (List Char) :=
  occValsF pat f s.length s k

/-- `s.replace(pat, repl)` with a global literal pattern and a constant
replacement string. -/
def replAllC (pat repl s : List Char) : List Char :=
  replG pat (fun _ => repl) s 0

/-! ## parsePath (utils.ts)

The current time is a `Clock` holding the calendar fields JS reads off
`new Date()` (`getMonth() + 1` folded into `month`) plus `getTime()` in
milliseconds.  The three random placeholders draw from the oracles
`g8`, `g16`, `gu` — one fresh index per occurrence, as the per-match
callbacks `() => generateRandomHex(8)`, `() => generateRandomHex(16)` and
`() => crypto.randomUUID()` do. -/

structure Clock where
  year : Nat
  month : Nat
  day : Nat
  hours : Nat
  minutes : Nat
  seconds : Nat
  epochMillis : Nat
deriving DecidableEq

/-- `n.toString()` for a JS number holding a natural. -/
def natStr (n : Nat) : List Char :=
  Nat.toDigits 10 n

/-- `.padStart(width, c)`. -/
def padL (width : Nat) (c : Char) (l : List Char) : List Char :=
  List.replicate (width - l.length) c ++ l

/-- The string after the ten deterministic substitutions of parsePath
({year} … {timestamp_nano}, {originname}, {originname_without_ext},
{ext}), in source order. -/
def detPart (filename format : List Char) (clk : Clock) : List Char :=
  let year := natStr clk.year
  let month := padL 2 '0' (natStr clk.month)
  let day := padL 2 '0' (natStr clk.day)
  let hours := padL 2 '0' (natStr clk.hours)
  let minutes := padL 2 '0' (natStr clk.minutes)
  let seconds := padL 2 '0' (natStr clk.seconds)
  let dateStr := year ++ month ++ day
  let timeStr := year ++ month ++ day ++ hours ++ minutes ++ seconds
  let timestamp := natStr (clk.epochMillis / 1000)
  let timestampNano := natStr (clk.epochMillis * 1000000)
  let ext := extOf filename
  let p := format
  let p := replAllC (chars "{year}") year p
  let p := replAllC (chars "{month}") month p
  let p := replAllC (chars "{day}") day p
  let p := replAllC (chars "{date}") dateStr p
  let p := replAllC (chars "{time}") timeStr p
  let p := replAllC (chars "{timestamp}") timestamp p
  let p := replAllC (chars "{timestamp_nano}") timestampNano p
  let p := replAllC (chars "{originname}") (sanitizeFilename filename) p
  let p := replAllC (chars "{originname_without_ext}") (originNameWithoutExtOf filename) p
  let p := replAllC (chars "{ext}") ext p
  p

/-- parsePath from utils.ts: the deterministic substitutions followed by
the three random ones, each drawing a fresh oracle value per occurrence. -/
def parsePath (filename format : List Char) (clk : Clock)
    (g8 g16 gu : Nat → List Char) : List Char :=
  let p := detPart filename format clk
  let p := replG (chars "{randomkey8}") g8 p 0
  let p := replG (chars "{randomkey16}") g16 p 0
  replG (chars "{uuid}") gu p 0

/-! ## The upload handler (src/index.ts, app.post("/upload")) -/

/-- The environment bindings read by the upload handler.  JS falsiness of
an unset or empty string binding is modelled by `[]`. -/
structure Env where
  AUTH_KEY : List Char
  UPLOAD_PATH_FORMAT : List Char
deriving DecidableEq

/-- The file part of the multipart body. -/
structure FilePart where
  name : List Char
  size : Nat
deriving DecidableEq

/-- The request data the handler branches on: the Authorization header,
the file part, and the optional customPath form field (none when absent
or not a string). -/
structure Req where
  authorization : Option (List Char)
  file : Option FilePart
  customPath : Option (List Char)
deriving DecidableEq

/-- The observable outcome: the HTTP status of the response and the key
of the BUCKET.put call, `none` when no store write is attempted. -/
structure UploadOutcome where
  status : Nat
  put : Option (List Char)
deriving DecidableEq

/-- A JS whitespace character as far as String.prototype.trim goes (the
characters that can actually occur here). -/
def jsWs (c : Char) : Bool :=
  c == ' ' || c == '\t' || c == '\n' || c == '\r'

/-- `s.trim()`. -/
def jsTrim (l : List Char) : List Char :=
  ((l.dropWhile jsWs).reverse.dropWhile jsWs).reverse

/-- `s.replace(/^∕+/, "")` of the source (with the slash written out):
strip every leading forward slash. -/
def dropLeadingSlashes (l : List Char) : List Char :=
  l.dropWhile fun c => c == '/'

/-- The path computation of the handler: a non-blank customPath is trimmed
and stripped of leading slashes; otherwise parsePath runs on the configured
format, falling back to "{year}/{month}/{day}/{randomkey16}{ext}" when the
binding is falsy. -/
def resolvePath (env : Env) (fp : FilePart) (customPath : Option (List Char))
    (clk : Clock) (g8 g16 gu : Nat → List Char) : List Char :=
  match customPath with
  | some p =>
    if jsTrim p = [] then
      parsePath fp.name
        (if env.UPLOAD_PATH_FORMAT = [] then chars "{year}/{month}/{day}/{randomkey16}{ext}"
         else env.UPLOAD_PATH_FORMAT) clk g8 g16 gu
    else dropLeadingSlashes (jsTrim p)
  | none =>
    parsePath fp.name
      (if env.UPLOAD_PATH_FORMAT = [] then chars "{year}/{month}/{day}/{randomkey16}{ext}"
       else env.UPLOAD_PATH_FORMAT) clk g8 g16 gu

/-- app.post("/upload") from src/index.ts: configuration check, auth
check, file presence check, size check, path resolution, the single
leading-slash strip, then the BUCKET.put call. -/
def uploadHandler (env : Env) (req : Req) (clk : Clock)
    (g8 g16 gu : Nat → List Char) : UploadOutcome :=
  if env.AUTH_KEY = [] then ⟨500, none⟩
  else if ¬ req.authorization = some env.AUTH_KEY then ⟨401, none⟩
  else
    match req.file with
    | none => ⟨400, none⟩
    | some fp =>
      if 104857600 < fp.size then ⟨413, none⟩
      else
        let path := resolvePath env fp req.customPath clk g8 g16 gu
        let path := if path.head? = some '/' then path.drop 1 else path
        ⟨200, some path⟩

/-! ## Admission Guard (Flask backend)

The Flask backend's main.py is not part of the repository snapshot; only
the README ("3 failed authentication attempts → 1-hour ban") and the RPD
document describe it.  The guard is therefore modelled from the
specification, §4.1. -/

/-- Result of an authentication attempt. -/
inductive AuthResult where
  | allowed
  | deniedBanned
  | deniedInvalidCredential
deriving DecidableEq

/-- Per-address admission record: consecutive-failure counter and
optional ban-expiry timestamp (seconds). -/
structure BanRecord where
  failCount : Nat
  banExpiry : Option Nat
deriving DecidableEq

/-- The guard's table, one record per client address. -/
def GuardState : Type := List Char → BanRecord

/-- Point update of the table. -/
def upd (st : GuardState) (addr : List Char) (r : BanRecord) : GuardState :=
  fun a => if a = addr then r else st a

/-- Whether a record carries an unexpired ban at time `now`. -/
def banActive (r : BanRecord) (now : Nat) : Bool :=
  match r.banExpiry with
  | some e => decide (now < e)
  | none => false

/-- Modelled from the spec: `authenticate(clientAddress, presentedCredential)`
of the Admission Guard (§4.1), whose implementation (the Flask backend's
main.py) is missing from the snapshot.  An unexpired ban is denied without
comparing credentials; a match resets the failure counter; a mismatch
increments it, and on reaching the threshold 3 sets a ban expiring
`now + 1 hour` and resets the counter. -/
def authenticate (secret : List Char) (st : GuardState) (addr cred : List Char)
    (now : Nat) : AuthResult × GuardState :=
  let r := st addr
  if banActive r now then (.deniedBanned, st)
  else if cred = secret then (.allowed, upd st addr { r with failCount := 0 })
  else
    let n := r.failCount + 1
    if 3 ≤ n then (.deniedInvalidCredential, upd st addr ⟨0, some (now + 3600)⟩)
    else (.deniedInvalidCredential, upd st addr { r with failCount := n })

/-- The guard table after three attempts from `addr` with credentials
`c1`, `c2`, `c3` at times `t1`, `t2`, `t3`. -/
def stateAfter3 (secret : List Char) (st0 : GuardState) (addr c1 c2 c3 : List Char)
    (t1 t2 t3 : Nat) : GuardState :=
  let st1 := (authenticate secret st0 addr c1 t1).2
  let st2 := (authenticate secret st1 addr c2 t2).2
  (authenticate secret st2 addr c3 t3).2

/-! ## Deterministic / dedup rename (Flask backend)

Modelled from the spec (§4.2) and the pseudocode of
docs/bytego-rpd.md §4.2 — main.py itself is missing from the snapshot:

  hash = md5(file.content)[:8]
  max_stem = 40 - len(ext) - 9   # 9 = len("-") + len(hash)
  stem = file.stem[:max_stem]
  return f"{date}/{stem}-{hash}{ext}"

Python slice semantics are kept: `s[:n]` for negative `n` drops `-n`
characters from the end. -/

/-- Python `s[:n]` for an `Int` bound. -/
def pyTake (l : List Char) (n : Int) : List Char :=
  if 0 ≤ n then l.take n.toNat else l.take (l.length - (-n).toNat)

/-- Modelled from the spec: the filename part produced by the Flask
backend's deterministic rename (`{stem}-{hash}{ext}` with the stem
truncated to `40 - len(ext) - 9` characters). -/
def renameName (stem ext hash : List Char) : List Char :=
  pyTake stem (40 - (ext.length : Int) - 9) ++ chars "-" ++ hash ++ ext

/-- Modelled from the spec: the full dedup-mode storage key
`{datePath}/{stem}-{hash}{ext}`. -/
def rename (datePath stem ext hash : List Char) : List Char :=
  datePath ++ chars "/" ++ renameName stem ext hash

end ByteGo

namespace ByteGo

example : sanitizeFilename (chars "../we ird/n@me.png") = chars "n_me.png" := by decide
example : extOf (chars "dir.v2/file") = chars ".v2/file" := by decide
example : baseNameOf (chars "abc/") = chars "abc/" := by decide
example : sanitizeFilename (chars "abc/") = chars "abc_" := by decide
example : generateRandomHex 5 (fun _ => 0) = chars "00000" := by decide
example : generateRandomHex 8 (fun i => 16 * i + 10) = chars "0a1a2a3a" := by decide
example : originNameWithoutExtOf (chars "dir.v2/file") = chars "" := by decide
example : originNameWithoutExtOf (chars "a.b.c") = chars "a.b" := by decide

def testClock : Clock := ⟨2024, 12, 25, 1, 2, 3, 1735088523000⟩

example :
    parsePath (chars "photo.png") (chars "{year}/{month}/{day}/{randomkey16}{ext}")
      testClock (fun _ => chars "RRRRRRRR") (fun n => chars (toString n) ++ chars "abcdefabcdefabc")
      (fun _ => []) = chars "2024/12/25/0abcdefabcdefabc.png" := by decide

example :
    parsePath (chars "dir.v2/file") (chars "{ext}") testClock
      (fun _ => []) (fun _ => []) (fun _ => []) = chars ".v2/file" := by decide

example :
    parsePath (chars "x.{randomkey8}") (chars "{ext}") testClock
      (fun _ => chars "aaaaaaaa") (fun _ => []) (fun _ => []) = chars ".aaaaaaaa" := by decide

example : countOcc (chars "{randomkey8}") (chars "{randomkey8}/{randomkey8}") = 2 := by decide

example :
    occVals (chars "{randomkey8}") (fun n => natStr n) (chars "{randomkey8}/{randomkey8}") 0
      = [chars "0", chars "1"] := by decide

example :
    replG (chars "ab") (fun n => natStr n) (chars "xabyabab") 0 = chars "x0y12" := by decide

example :
    uploadHandler ⟨chars "k", []⟩ ⟨some (chars "k"), some ⟨chars "passwd", 10⟩, some (chars "/../../etc/passwd")⟩
      testClock (fun _ => []) (fun _ => []) (fun _ => [])
      = ⟨200, some (chars "../../etc/passwd")⟩ := by decide

example :
    uploadHandler ⟨chars "k", chars "//a"⟩ ⟨some (chars "k"), some ⟨chars "f", 10⟩, none⟩
      testClock (fun _ => []) (fun _ => []) (fun _ => [])
      = ⟨200, some (chars "/a")⟩ := by decide

example :
    uploadHandler ⟨chars "k", []⟩ ⟨some (chars "k"), some ⟨chars "f", 104857601⟩, none⟩
      testClock (fun _ => []) (fun _ => []) (fun _ => []) = ⟨413, none⟩ := by decide

example :
    ((authenticate (chars "k") (fun _ => ⟨0, none⟩) (chars "10.0.0.5") (chars "x") 0).2
      (chars "10.0.0.5")).failCount = 1 := by decide

example :
    (stateAfter3 (chars "k") (fun _ => ⟨0, none⟩) (chars "10.0.0.5")
      (chars "x") (chars "y") (chars "z") 0 1 2) (chars "10.0.0.5")
      = ⟨0, some 3602⟩ := by decide

example :
    (authenticate (chars "k")
      (stateAfter3 (chars "k") (fun _ => ⟨0, none⟩) (chars "10.0.0.5")
        (chars "x") (chars "y") (chars "z") 0 1 2)
      (chars "10.0.0.5") (chars "k") 3).1 = .deniedBanned := by decide

example :
    (authenticate (chars "k")
      (stateAfter3 (chars "k") (fun _ => ⟨0, none⟩) (chars "10.0.0.5")
        (chars "x") (chars "y") (chars "z") 0 1 2)
      (chars "10.0.0.5") (chars "k") 3602).1 = .allowed := by decide

example :
    (renameName (chars "abcdefghij") ('.' :: List.replicate 34 'x') (chars "a1b2c3d4")).length
      = 50 := by decide

example :
    (renameName (chars "a-very-long-original-file-name-that-exceeds-limits") (chars ".pdf")
      (chars "a1b2c3d4")).length = 40 := by decide

/-! ## Supporting lemmas about the replace machinery -/

lemma occValsF_eq (pat : List Char) (f : Nat → List Char) :
    ∀ fuel s, s.length ≤ fuel → ∀ k,
      occValsF pat f fuel s k = (List.range' k (countOccF pat fuel s)).map f := by
  intro fuel
  induction fuel with
  | zero =>
    intro s hs k
    have hnil : s = [] := List.length_eq_zero.mp (Nat.le_zero.mp hs)
    subst hnil
    simp [occValsF, countOccF]
  | succ fuel ih =>
    intro s hs k
    match s with
    | [] => simp [occValsF, countOccF]
    | c :: rest =>
      by_cases h : pat ≠ [] ∧ pat.isPrefixOf (c :: rest) = true
      · have hp : 1 ≤ pat.length := List.length_pos.mpr h.1
        have hlen : ((c :: rest).drop pat.length).length ≤ fuel := by
          rw [List.length_drop]
          simp only [List.length_cons] at hs ⊢
          omega
        simp only [occValsF, countOccF, if_pos h]
        rw [ih _ hlen, List.range'_succ _ _ 1]
        simp
      · have hlen : rest.length ≤ fuel := by
          simp only [List.length_cons] at hs
          omega
        simp only [occValsF, countOccF, if_neg h]
        exact ih _ hlen k

lemma replF_no_occ (pat : List Char) (f : Nat → List Char) :
    ∀ fuel s, s.length ≤ fuel → countOccF pat fuel s = 0 → ∀ k,
      replF pat f fuel s k = s := by
  intro fuel
  induction fuel with
  | zero => intro s _ _ k; rfl
  | succ fuel ih =>
    intro s hs h0 k
    match s with
    | [] => rfl
    | c :: rest =>
      by_cases h : pat ≠ [] ∧ pat.isPrefixOf (c :: rest) = true
      · rw [countOccF, if_pos h] at h0
        exact absurd h0 (Nat.succ_ne_zero _)
      · have hlen : rest.length ≤ fuel := by
          simp only [List.length_cons] at hs
          omega
        rw [countOccF, if_neg h] at h0
        rw [replF, if_neg h, ih _ hlen h0 k]

lemma occVals_eq (pat : List Char) (f : Nat → List Char) (s : List Char) (k : Nat) :
    occVals pat f s k = (List.range' k (countOcc pat s)).map f :=
  occValsF_eq pat f s.length s le_rfl k

lemma occVals_getD (pat : List Char) (f : Nat → List Char) (s : List Char) (k i : Nat)
    (hi : i < countOcc pat s) :
    (occVals pat f s k).getD i [] = f (k + i) := by
  rw [occVals_eq]
  simp [List.getD, List.getElem?_map, List.getElem?_range', hi]

lemma replG_no_occ (pat : List Char) (f : Nat → List Char) (s : List Char) (k : Nat)
    (h : countOcc pat s = 0) :
    replG pat f s k = s :=
  replF_no_occ pat f s.length s le_rfl h k

lemma segsF_ne_nil (pat : List Char) : ∀ fuel s, segsF pat fuel s ≠ [] := by
  intro fuel s
  match fuel, s with
  | 0, s => simp [segsF]
  | fuel + 1, [] => simp [segsF]
  | fuel + 1, c :: rest =>
    simp only [segsF]
    split
    · simp
    · split <;> simp

lemma joinSegs_cons_head (c : Char) (seg : List Char) (segs vals : List (List Char)) :
    joinSegs ((c :: seg) :: segs) vals = c :: joinSegs (seg :: segs) vals := by
  cases vals <;> simp [joinSegs]

/-- The replace really is the interleaving of the untouched segments with
the substituted values: `occValsF` lists exactly the strings that replace
the occurrences. -/
lemma replF_join (pat : List Char) (f : Nat → List Char) :
    ∀ fuel s, s.length ≤ fuel → ∀ k,
      replF pat f fuel s k
        = joinSegs (segsF pat fuel s) (occValsF pat f fuel s k) := by
  intro fuel
  induction fuel with
  | zero =>
    intro s hs k
    have hnil : s = [] := List.length_eq_zero.mp (Nat.le_zero.mp hs)
    subst hnil
    simp [replF, segsF, occValsF, joinSegs]
  | succ fuel ih =>
    intro s hs k
    match s with
    | [] => simp [replF, segsF, occValsF, joinSegs]
    | c :: rest =>
      by_cases h : pat ≠ [] ∧ pat.isPrefixOf (c :: rest) = true
      · have hp : 1 ≤ pat.length := List.length_pos.mpr h.1
        have hlen : ((c :: rest).drop pat.length).length ≤ fuel := by
          rw [List.length_drop]
          simp only [List.length_cons] at hs ⊢
          omega
        simp only [replF, segsF, occValsF, if_pos h]
        rw [ih _ hlen]
        simp [joinSegs]
      · have hlen : rest.length ≤ fuel := by
          simp only [List.length_cons] at hs
          omega
        simp only [replF, segsF, occValsF, if_neg h]
        obtain ⟨seg, segs, hseg⟩ : ∃ seg segs, segsF pat fuel rest = seg :: segs := by
          cases hE : segsF pat fuel rest with
          | nil => exact absurd hE (segsF_ne_nil pat fuel rest)
          | cons a b => exact ⟨a, b, rfl⟩
        rw [hseg, ih _ hlen, hseg]
        exact (joinSegs_cons_head c seg segs _).symm ▸ rfl

/-- Wrapper of `replF_join` at the actual fuel. -/
lemma replG_join (pat : List Char) (f : Nat → List Char) (s : List Char) (k : Nat) :
    replG pat f s k
      = joinSegs (segsF pat s.length s) (occVals pat f s k) :=
  replF_join pat f s.length s le_rfl k

lemma head_dropLeadingSlashes (l : List Char) :
    ¬ (dropLeadingSlashes l).head? = some '/' := by
  induction l with
  | nil => simp [dropLeadingSlashes]
  | cons c rest ih =>
    by_cases h : c == '/'
    · simpa [dropLeadingSlashes, List.dropWhile_cons, h] using ih
    · simp only [dropLeadingSlashes, List.dropWhile_cons, h, if_neg]
      simp only [Bool.false_eq_true, if_false, List.head?_cons]
      intro hc
      rw [Option.some_inj] at hc
      exact absurd (by simp [hc] : (c == '/') = true) (by simpa using h)

lemma hexDigit_hex : ∀ n, n < 16 → HexLowerChar (hexDigit n) := by decide

/-! ## Claim theorems -/

/-- C10: for every length `n` and every byte oracle, `generateRandomHex n`
returns exactly `n` characters, each a lowercase hexadecimal digit in
[0-9a-f]. -/
theorem generateRandomHex_spec (len : Nat) (bytes : Nat → Nat) :
    (generateRandomHex len bytes).length = len ∧
      ∀ c ∈ generateRandomHex len bytes, HexLowerChar c := by
  constructor
  · unfold generateRandomHex
    rw [List.length_take, List.length_flatten, List.map_map]
    have hmap : (List.range ((len + 1) / 2)).map
          (List.length ∘ fun i => byteToHex (bytes i % 256))
        = (List.range ((len + 1) / 2)).map (fun _ => 2) :=
      List.map_congr_left fun i _ => rfl
    rw [hmap, List.map_const', List.length_range, List.sum_replicate, smul_eq_mul]
    omega
  · intro c hc
    unfold generateRandomHex at hc
    have hc2 := List.mem_of_mem_take hc
    rw [List.mem_flatten] at hc2
    obtain ⟨l, hl, hcl⟩ := hc2
    rw [List.mem_map] at hl
    obtain ⟨i, -, rfl⟩ := hl
    have hb : bytes i % 256 < 256 := Nat.mod_lt _ (by omega)
    unfold byteToHex at hcl
    rcases List.mem_pair.mp (by simpa using hcl) with rfl | rfl
    · exact hexDigit_hex _ (by omega)
    · exact hexDigit_hex _ (by omega)

/-- C10 witness at length 5 with the zero byte oracle. -/
theorem generateRandomHex_spec_witness :
    (generateRandomHex 5 (fun _ => 0)).length = 5 ∧ HexLowerChar '0' :=
  ⟨(generateRandomHex_spec 5 (fun _ => 0)).1,
   (generateRandomHex_spec 5 (fun _ => 0)).2 '0' (by decide)⟩

/-- C4: in one evaluation of the template, the occurrences of a random
placeholder ({randomkey8} or {randomkey16}) are substituted with
successive fresh draws of the oracle (`occVals` is the list of values the
replace interleaves with the untouched segments, see `replG_join`), so any
two distinct occurrences receive distinct values provided the two fresh
draws themselves do not collide. -/
theorem randomkey_occurrences_distinct (pat s : List Char) (f : Nat → List Char)
    (k i j : Nat)
    (_hpat : pat = chars "{randomkey8}" ∨ pat = chars "{randomkey16}")
    (hi : i < countOcc pat s) (hj : j < countOcc pat s) (_hij : i ≠ j)
    (hfresh : f (k + i) ≠ f (k + j)) :
    (occVals pat f s k).getD i [] ≠ (occVals pat f s k).getD j [] := by
  rw [occVals_getD pat f s k i hi, occVals_getD pat f s k j hj]
  exact hfresh

/-- C4 witness: a template with two {randomkey8} occurrences and
non-colliding draws. -/
theorem randomkey_occurrences_distinct_witness :
    (occVals (chars "{randomkey8}") (fun n => natStr n)
        (chars "{randomkey8}/{randomkey8}") 0).getD 0 []
      ≠ (occVals (chars "{randomkey8}") (fun n => natStr n)
        (chars "{randomkey8}/{randomkey8}") 0).getD 1 [] :=
  randomkey_occurrences_distinct (chars "{randomkey8}")
    (chars "{randomkey8}/{randomkey8}") (fun n => natStr n) 0 0 1
    (Or.inl rfl) (by decide) (by decide) (by decide) (by decide)

/-- C5: every character of the sanitized filename substituted for
{originname} lies in [A-Za-z0-9._-]; in particular no path separator
(forward or back slash) survives sanitization. -/
theorem sanitize_safe (filename : List Char) (c : Char)
    (hc : c ∈ sanitizeFilename filename) :
    SafeChar c ∧ c ≠ '/' ∧ c ≠ '\\' := by
  have hsafe : SafeChar c := by
    rw [sanitizeFilename, List.mem_map] at hc
    obtain ⟨x, -, rfl⟩ := hc
    unfold sanitizeChar
    split
    · assumption
    · decide
  refine ⟨hsafe, ?_, ?_⟩
  · rintro rfl; revert hsafe; decide
  · rintro rfl; revert hsafe; decide

/-- C5 witness on the filename "../we ird/n@me.png". -/
theorem sanitize_safe_witness :
    SafeChar 'n' ∧ 'n' ≠ '/' ∧ 'n' ≠ '\\' :=
  sanitize_safe (chars "../we ird/n@me.png") 'n' (by decide)

/-- C9: {ext} is taken from the unsanitized original filename (the suffix
from its last dot), not from the sanitized final segment: for
"dir.v2/file" the substituted extension is ".v2/file", which contains a
path separator (a character outside [A-Za-z0-9._-]), and it reaches the
generated storage key verbatim. -/
theorem ext_unsanitized :
    extOf (chars "dir.v2/file") = chars ".v2/file" ∧
    sanitizeFilename (chars "dir.v2/file") = chars "file" ∧
    parsePath (chars "dir.v2/file") (chars "{ext}") testClock
        (fun _ => []) (fun _ => []) (fun _ => []) = chars ".v2/file" ∧
    '/' ∈ parsePath (chars "dir.v2/file") (chars "{ext}") testClock
        (fun _ => []) (fun _ => []) (fun _ => []) ∧
    ¬ SafeChar '/' := by decide

/-- C3 counterexample: with a 35-character extension the reserved space
`len(ext) + 9` already exceeds 40, and the produced dedup filename is 50
characters long, refuting the unconditional 40-character bound. -/
theorem rename_length_cex :
    40 < (renameName (chars "abcdefghij") ('.' :: List.replicate 34 'x')
      (chars "a1b2c3d4")).length := by decide

/-- C3 amended: whenever the reserved space fits inside the limit — the
extension is at most 31 characters, so that `len(ext) + 1 + len(hash) ≤ 40`
with the 8-character hash — the produced filename
(truncated stem + "-" + hash + ext) never exceeds 40 characters. -/
theorem rename_length_bound (stem ext hash : List Char)
    (hext : ext.length ≤ 31) (hhash : hash.length = 8) :
    (renameName stem ext hash).length ≤ 40 := by
  have h0 : (0 : Int) ≤ 40 - (ext.length : Int) - 9 := by omega
  have htn : (40 - (ext.length : Int) - 9).toNat = 31 - ext.length := by omega
  simp only [renameName, pyTake, if_pos h0, htn, chars, List.length_append,
    List.length_take, hhash]
  have : (String.toList "-").length = 1 := by decide
  omega

/-- C3 amended witness: scenario 2 of the spec, a long stem with ".pdf"
and hash "a1b2c3d4". -/
theorem rename_length_bound_witness :
    (renameName (chars "a-very-long-original-file-name-that-exceeds-limits")
      (chars ".pdf") (chars "a1b2c3d4")).length ≤ 40 :=
  rename_length_bound (chars "a-very-long-original-file-name-that-exceeds-limits")
    (chars ".pdf") (chars "a1b2c3d4") (by decide) (by decide)

/-- C6: the handler strips only a single leading slash from a
template-derived key, so with the configured path format "//a" the key
handed to BUCKET.put is "/a", which still begins with '/' — contradicting
the invariant and the code's own comment. -/
theorem leading_slash_cex :
    uploadHandler ⟨chars "k", chars "//a"⟩
        ⟨some (chars "k"), some ⟨chars "f", 10⟩, none⟩
        testClock (fun _ => []) (fun _ => []) (fun _ => [])
      = ⟨200, some (chars "/a")⟩ ∧
    (chars "/a").head? = some '/' := by decide

/-- C7: an otherwise admissible upload whose file size exceeds the
100 MB limit is rejected with HTTP 413 and no BUCKET.put is attempted. -/
theorem oversized_rejected (env : Env) (req : Req) (clk : Clock)
    (g8 g16 gu : Nat → List Char) (fp : FilePart)
    (hkey : env.AUTH_KEY ≠ [])
    (hauth : req.authorization = some env.AUTH_KEY)
    (hfile : req.file = some fp)
    (hsize : 104857600 < fp.size) :
    uploadHandler env req clk g8 g16 gu = ⟨413, none⟩ := by
  simp [uploadHandler, hkey, hauth, hfile, hsize]

/-- C7 witness: a 100 MB + 1 byte file. -/
theorem oversized_rejected_witness :
    uploadHandler ⟨chars "k", []⟩
        ⟨some (chars "k"), some ⟨chars "big.bin", 104857601⟩, none⟩
        testClock (fun _ => []) (fun _ => []) (fun _ => []) = ⟨413, none⟩ :=
  oversized_rejected ⟨chars "k", []⟩
    ⟨some (chars "k"), some ⟨chars "big.bin", 104857601⟩, none⟩
    testClock (fun _ => []) (fun _ => []) (fun _ => [])
    ⟨chars "big.bin", 104857601⟩ (by decide) rfl rfl (by decide)

/-- C1 counterexample: the override path "/../../etc/passwd" is not
rejected — the handler answers 200 and a BUCKET.put is attempted with the
key "../../etc/passwd", which still begins with a traversal segment. -/
theorem upload_traversal_cex :
    uploadHandler ⟨chars "k", []⟩
        ⟨some (chars "k"), some ⟨chars "passwd", 10⟩, some (chars "/../../etc/passwd")⟩
        testClock (fun _ => []) (fun _ => []) (fun _ => [])
      = ⟨200, some (chars "../../etc/passwd")⟩ ∧
    (chars "..").isPrefixOf (chars "../../etc/passwd") = true := by decide

/-- C1 amended: a caller override containing traversal segments is NOT
rejected; for every otherwise admissible request with a non-blank
override, the handler returns 200 and attempts the store write under the
trimmed override with its leading slashes stripped, traversal segments
and all. -/
theorem upload_override_verbatim (env : Env) (req : Req) (clk : Clock)
    (g8 g16 gu : Nat → List Char) (fp : FilePart) (p : List Char)
    (hkey : env.AUTH_KEY ≠ [])
    (hauth : req.authorization = some env.AUTH_KEY)
    (hfile : req.file = some fp)
    (hsize : fp.size ≤ 104857600)
    (hcp : req.customPath = some p)
    (hne : jsTrim p ≠ []) :
    uploadHandler env req clk g8 g16 gu
      = ⟨200, some (dropLeadingSlashes (jsTrim p))⟩ := by
  have hns : ¬ 104857600 < fp.size := by omega
  have hhead := head_dropLeadingSlashes (jsTrim p)
  simp [uploadHandler, resolvePath, hkey, hauth, hfile, hcp, hne, hns, hhead]

/-- C1 amended witness: the traversal override of scenario 3. -/
theorem upload_override_verbatim_witness :
    uploadHandler ⟨chars "k", []⟩
        ⟨some (chars "k"), some ⟨chars "passwd", 10⟩, some (chars "/../../etc/passwd")⟩
        testClock (fun _ => []) (fun _ => []) (fun _ => [])
      = ⟨200, some (dropLeadingSlashes (jsTrim (chars "/../../etc/passwd")))⟩ :=
  upload_override_verbatim ⟨chars "k", []⟩
    ⟨some (chars "k"), some ⟨chars "passwd", 10⟩, some (chars "/../../etc/passwd")⟩
    testClock (fun _ => []) (fun _ => []) (fun _ => [])
    ⟨chars "passwd", 10⟩ (chars "/../../etc/passwd")
    (by decide) rfl rfl (by decide) rfl (by decide)

/-- C8 counterexample: the template "{ext}" contains no random and no
time-dependent placeholder, yet two evaluations at the same fixed clock on
the filename "x.{randomkey8}" differ, because the unsanitized extension
injects a {randomkey8} occurrence that is then substituted with a fresh
draw. -/
theorem idempotence_cex :
    parsePath (chars "x.{randomkey8}") (chars "{ext}") testClock
        (fun _ => chars "aaaaaaaa") (fun _ => []) (fun _ => [])
      ≠ parsePath (chars "x.{randomkey8}") (chars "{ext}") testClock
        (fun _ => chars "bbbbbbbb") (fun _ => []) (fun _ => []) := by decide

/-- C8 amended: two evaluations of parsePath on the same filename,
template and fixed clock yield the identical key provided the string after
the deterministic substitutions — not merely the template — contains no
occurrence of {randomkey8}, {randomkey16} or {uuid}.  (At a fixed clock
the time placeholders are deterministic, so no condition on them is
needed; the extra condition on the substituted string is needed because
the unsanitized {ext} value can inject a random placeholder.) -/
theorem parsePath_deterministic (filename format : List Char) (clk : Clock)
    (g8 g16 gu g8a g16a gua : Nat → List Char)
    (_hf8 : countOcc (chars "{randomkey8}") format = 0)
    (_hf16 : countOcc (chars "{randomkey16}") format = 0)
    (_hfu : countOcc (chars "{uuid}") format = 0)
    (h8 : countOcc (chars "{randomkey8}") (detPart filename format clk) = 0)
    (h16 : countOcc (chars "{randomkey16}") (detPart filename format clk) = 0)
    (hu : countOcc (chars "{uuid}") (detPart filename format clk) = 0) :
    parsePath filename format clk g8 g16 gu
      = parsePath filename format clk g8a g16a gua := by
  show replG (chars "{uuid}") gu
      (replG (chars "{randomkey16}") g16
        (replG (chars "{randomkey8}") g8 (detPart filename format clk) 0) 0) 0
    = replG (chars "{uuid}") gua
      (replG (chars "{randomkey16}") g16a
        (replG (chars "{randomkey8}") g8a (detPart filename format clk) 0) 0) 0
  rw [replG_no_occ _ g8 _ _ h8, replG_no_occ _ g8a _ _ h8,
    replG_no_occ _ g16 _ _ h16, replG_no_occ _ g16a _ _ h16,
    replG_no_occ _ gu _ _ hu, replG_no_occ _ gua _ _ hu]

/-- C8 amended witness: the default-style template on "photo.png". -/
theorem parsePath_deterministic_witness :
    parsePath (chars "photo.png") (chars "{year}/{month}/{day}{ext}") testClock
        (fun _ => chars "aaaaaaaa") (fun _ => chars "cccccccc") (fun _ => chars "u")
      = parsePath (chars "photo.png") (chars "{year}/{month}/{day}{ext}") testClock
        (fun _ => chars "bbbbbbbb") (fun _ => chars "dddddddd") (fun _ => chars "v") :=
  parsePath_deterministic (chars "photo.png") (chars "{year}/{month}/{day}{ext}")
    testClock (fun _ => chars "aaaaaaaa") (fun _ => chars "cccccccc") (fun _ => chars "u")
    (fun _ => chars "bbbbbbbb") (fun _ => chars "dddddddd") (fun _ => chars "v")
    (by decide) (by decide) (by decide) (by decide) (by decide) (by decide)

/-- C2: starting from a clean record, three consecutive failed attempts
from one address set a one-hour ban: the 4th attempt, even with the
correct credential, is denied as banned (while the ban is unexpired), and
an attempt with the correct credential at or after expiry is allowed and
leaves the address's failure counter at 0. -/
theorem admission_ban_cycle (secret : List Char) (st0 : GuardState)
    (addr c1 c2 c3 : List Char) (t1 t2 t3 t4 t5 : Nat)
    (h0 : st0 addr = ⟨0, none⟩)
    (h1 : c1 ≠ secret) (h2 : c2 ≠ secret) (h3 : c3 ≠ secret)
    (h4 : t4 < t3 + 3600) (h5 : t3 + 3600 ≤ t5) :
    (authenticate secret (stateAfter3 secret st0 addr c1 c2 c3 t1 t2 t3)
        addr secret t4).1 = .deniedBanned ∧
    (authenticate secret
        ((authenticate secret (stateAfter3 secret st0 addr c1 c2 c3 t1 t2 t3)
          addr secret t4).2) addr secret t5).1 = .allowed ∧
    ((authenticate secret
        ((authenticate secret (stateAfter3 secret st0 addr c1 c2 c3 t1 t2 t3)
          addr secret t4).2) addr secret t5).2 addr).failCount = 0 := by
  have e3 : stateAfter3 secret st0 addr c1 c2 c3 t1 t2 t3 addr
      = ⟨0, some (t3 + 3600)⟩ := by
    simp [stateAfter3, authenticate, banActive, upd, h0, h1, h2, h3]
  have e4 : authenticate secret (stateAfter3 secret st0 addr c1 c2 c3 t1 t2 t3)
      addr secret t4
      = (.deniedBanned, stateAfter3 secret st0 addr c1 c2 c3 t1 t2 t3) := by
    simp [authenticate, e3, banActive, h4]
  rw [e4]
  have hnb : ¬ t5 < t3 + 3600 := by omega
  refine ⟨rfl, ?_, ?_⟩ <;>
    simp [authenticate, e3, banActive, upd, hnb]

/-- C2 witness: address "10.0.0.5", three wrong keys at times 0, 1, 2, the
correct key at time 3 (banned) and at time 3602 (= 2 + 3600, expiry). -/
theorem admission_ban_cycle_witness :
    (authenticate (chars "k")
        (stateAfter3 (chars "k") (fun _ => ⟨0, none⟩) (chars "10.0.0.5")
          (chars "x") (chars "y") (chars "z") 0 1 2)
        (chars "10.0.0.5") (chars "k") 3).1 = .deniedBanned ∧
    (authenticate (chars "k")
        ((authenticate (chars "k")
          (stateAfter3 (chars "k") (fun _ => ⟨0, none⟩) (chars "10.0.0.5")
            (chars "x") (chars "y") (chars "z") 0 1 2)
          (chars "10.0.0.5") (chars "k") 3).2) (chars "10.0.0.5") (chars "k") 3602).1
      = .allowed ∧
    ((authenticate (chars "k")
        ((authenticate (chars "k")
          (stateAfter3 (chars "k") (fun _ => ⟨0, none⟩) (chars "10.0.0.5")
            (chars "x") (chars "y") (chars "z") 0 1 2)
          (chars "10.0.0.5") (chars "k") 3).2) (chars "10.0.0.5") (chars "k") 3602).2
        (chars "10.0.0.5")).failCount = 0 :=
  admission_ban_cycle (chars "k") (fun _ => ⟨0, none⟩) (chars "10.0.0.5")
    (chars "x") (chars "y") (chars "z") 0 1 2 3 3602
    rfl (by decide) (by decide) (by decide) (by decide) (by decide)

end ByteGo
